import Mathlib

/-!
Verification of the FitScore AI backend (server.ts): the tagged-text model
output parser, the prompt builder, the per-resume orchestration loop and the
HTTP request handler are embedded as executable Lean definitions, and the
specified properties are settled against them.
-/

namespace FitScore

/-! ### JavaScript character classes

`isJsWs` is the character class of the JavaScript regex `\s`, `isLineTerm`
the set of line terminators (the characters NOT matched by `.`), and
`isDigitC` the class `\d` (ASCII digits only). -/

def isJsWs (c : Char) : Bool :=
  c.toNat == 9 || c.toNat == 10 || c.toNat == 11 || c.toNat == 12 ||
  c.toNat == 13 || c.toNat == 32 || c.toNat == 160 || c.toNat == 0x1680 ||
  (0x2000 ≤ c.toNat && c.toNat ≤ 0x200a) ||
  c.toNat == 0x2028 || c.toNat == 0x2029 || c.toNat == 0x202f ||
  c.toNat == 0x205f || c.toNat == 0x3000 || c.toNat == 0xfeff

def isLineTerm (c : Char) : Bool :=
  c.toNat == 10 || c.toNat == 13 || c.toNat == 0x2028 || c.toNat == 0x2029

def isDigitC (c : Char) : Bool :=
  48 ≤ c.toNat && c.toNat ≤ 57

/-- ASCII lower-casing on code points, the canonicalisation performed by a
case-insensitive (`/i`, non-unicode) JavaScript regex on the ASCII range. -/
def lowerNat (c : Char) : Nat :=
  if 65 ≤ c.toNat ∧ c.toNat ≤ 90 then c.toNat + 32 else c.toNat

/-- Case-insensitive character comparison of the `/i` flag. -/
def charCI (a c : Char) : Bool :=
  lowerNat a == lowerNat c

/-- JavaScript `String.prototype.trim`, on character lists. -/
def jsTrimL (l : List Char) : List Char :=
  ((l.dropWhile isJsWs).reverse.dropWhile isJsWs).reverse

/-- JavaScript `String.prototype.trim`. -/
def jsTrim (s : String) : String :=
  (jsTrimL s.data).asString

/-! ### Regex scanning

`matchCI pat cs` matches the literal characters `pat` case-insensitively at
the start of `cs`, returning the rest of `cs`.  `searchFrom att cs` runs the
match attempt `att` at every start position of `cs` from the left, returning
the first success: this is exactly how a JavaScript regex without anchors is
tried at successive indices by `match`/`search`. -/

def matchCI : List Char → List Char → Option (List Char)
  | [], cs => some cs
  | _ :: _, [] => none
  | t :: ts, c :: cs => if charCI t c then matchCI ts cs else none

def searchFrom (att : List Char → Option α) : List Char → Option α
  | [] => att []
  | c :: cs =>
    match att (c :: cs) with
    | some r => some r
    | none => searchFrom att cs

/-- Exact mathematical integer value of a captured `\d+` digit run. -/
def natOfDigits (l : List Char) : Nat :=
  l.foldl (fun n c => n * 10 + (c.toNat - 48)) 0

/-- Fuel-bounded floor base-2 logarithm (structural recursion, so concrete
evaluation stays kernel-reducible; the fuel is instantiated with the number
itself, which always dominates the recursion depth). -/
def log2fuel : Nat → Nat → Nat
  | 0, _ => 0
  | fuel + 1, n => if 2 ≤ n then log2fuel fuel (n / 2) + 1 else 0

/-- Floor base-2 logarithm. -/
def floorLog2 (n : Nat) : Nat := log2fuel n n

/-- ECMAScript number produced by `Number` on a digit run: a non-negative
integral double, or positive infinity on overflow. -/
inductive JsNumber where
  | nat (n : Nat)
  | inf
deriving DecidableEq, Repr

/-- Rounding of a non-negative integer to the nearest IEEE-754 double, as
ECMAScript `StringToNumber` specifies: integers below `2^53` are exact;
above, the value is rounded to the nearest multiple of the unit in the last
place `2^(e-52)` (ties to the even mantissa), and a result reaching `2^1024`
overflows to infinity.  For example `9007199254740993` (`2^53 + 1`) rounds
down to `9007199254740992`. -/
def roundToDouble (v : Nat) : JsNumber :=
  if v < 2 ^ 53 then .nat v
  else
    let e := floorLog2 v
    let unit := 2 ^ (e - 52)
    let q := v / unit
    let r := v % unit
    let q2 :=
      if 2 * r < unit then q
      else if unit < 2 * r then q + 1
      else if q % 2 = 0 then q else q + 1
    if q2 * unit < 2 ^ 1024 then .nat (q2 * unit) else .inf

/-- Value of a captured `\d+` digit run as `Number(digits)` computes it: the
exact value of the digits, rounded to the nearest double. -/
def jsNumber (ds : List Char) : JsNumber := roundToDouble (natOfDigits ds)

/-- One attempt of `/TAG\s*:\s*(\d+)/i` at the start of `cs` (deterministic:
`\s` matches neither `:` nor a digit, so greedy matching never backtracks). -/
def scoreAttempt (tag : List Char) (cs : List Char) : Option JsNumber :=
  match matchCI tag cs with
  | none => none
  | some rest =>
    match rest.dropWhile isJsWs with
    | [] => none
    | c :: rest2 =>
      if c = ':' then
        let ds := (rest2.dropWhile isJsWs).takeWhile isDigitC
        if ds.isEmpty then none else some (jsNumber ds)
      else none

/-- Embedding of `raw.match(/TAG\s*:\s*(\d+)/i)` followed by `Number` on the
capture. -/
def findScore (tag : String) (raw : List Char) : Option JsNumber :=
  searchFrom (scoreAttempt tag.data) raw

/-- One attempt of `/VERDICT\s*:\s*(.+)/i` at the start of `cs`, returning the
capture.  After the colon the greedy `\s*` first swallows all whitespace
(which includes line breaks); if a character remains, `(.+)` takes the maximal
run of non-line-terminator characters from there.  If the string ends in
whitespace, `\s*` backtracks, and `(.+)` matches the last single
non-line-terminator whitespace character if one exists. -/
def verdictAttempt (cs : List Char) : Option (List Char) :=
  match matchCI "VERDICT".data cs with
  | none => none
  | some rest =>
    match rest.dropWhile isJsWs with
    | [] => none
    | c :: rest2 =>
      if c = ':' then
        match rest2.dropWhile isJsWs with
        | [] =>
          match (rest2.takeWhile isJsWs).reverse.find? (fun c => !isLineTerm c) with
          | some c => some [c]
          | none => none
        | b :: t => some ((b :: t).takeWhile (fun c => !isLineTerm c))
      else none

/-- Embedding of `raw.match(/VERDICT\s*:\s*(.+)/i)`, returning the capture. -/
def findVerdict (raw : List Char) : Option (List Char) :=
  searchFrom verdictAttempt raw

/-- Does `/TAG\s*:/i` match at the start of `cs`? -/
def tagColonAt (tag : List Char) (cs : List Char) : Bool :=
  match matchCI tag cs with
  | none => false
  | some rest =>
    match rest.dropWhile isJsWs with
    | [] => false
    | c :: _ => c = ':'

/-- One attempt of `raw.search(/REPORT\s*:/i)` at the start of `cs`; a success
returns the whole suffix from the match position, mirroring
`raw.slice(reportIndex)`. -/
def reportAttempt (cs : List Char) : Option (List Char) :=
  if tagColonAt "REPORT".data cs then some cs else none

/-- Embedding of `raw.search(/REPORT\s*:/i)` followed by `raw.slice(reportIndex)`:
the suffix of `raw` from the first match of the report marker. -/
def searchReport (raw : List Char) : Option (List Char) :=
  searchFrom reportAttempt raw

/-! ### parseModelOutput -/

structure ParsedOutput where
  fitScore : Option JsNumber
  riskScore : Option JsNumber
  verdict : String
  report : String
deriving DecidableEq, Repr

/-- Function `parseModelOutput` of server.ts: parse the model's tagged text output into
the structured shape, with the exact regexes and fallbacks of the source. -/
def parseModelOutput (raw : String) : ParsedOutput :=
  let cs := raw.data
  let fitScore := findScore "FIT_SCORE" cs
  let riskScore := findScore "RISK_SCORE" cs
  let verdict :=
    match findVerdict cs with
    | some cap => (jsTrimL cap).asString
    | none => "No clear verdict parsed"
  let report :=
    match searchReport cs with
    | some afterM =>
      match afterM.findIdx? (· == '\n') with
      | some i => (jsTrimL (afterM.drop (i + 1))).asString
      | none => (jsTrimL afterM).asString
    | none => raw
  ⟨fitScore, riskScore, verdict, report⟩

/-! ### Data model and orchestrator -/

structure ResumeInput where
  id : String
  text : String
deriving DecidableEq, Repr

structure AnalyzeResult where
  id : String
  fitScore : Option JsNumber
  riskScore : Option JsNumber
  verdict : String
  report : String
deriving DecidableEq, Repr

/-- Function `buildPrompt` of server.ts: the fixed template with the job description
and resume interpolated verbatim. -/
def buildPrompt (jd : String) (resumeText : String) : String :=
  "\nYou are a ruthless startup founder reviewing candidates for a Senior Full-Stack / Agent Infra role at CoreSpeed.\n\nYou get:\n1) The exact job description (JD).\n2) One candidate\u2019s resume.\n\nYour job:\n- Decide how well this candidate truly fits the JD.\n- Detect any bullshit / AI-rewritten / keyword-stuffed patterns.\n- Score both Fit and Risk.\n\nIMPORTANT: You MUST respond in the following EXACT plain-text format.\nDo NOT add any extra explanation, headings, markdown, or text before FIT_SCORE:.\n\nFIT_SCORE: <integer 0-10>\nRISK_SCORE: <integer 0-10>\nVERDICT: <short one-sentence founder-style verdict>\nREPORT:\n<multi-line markdown analysis; sections: Alignment, Gaps, Red Flags, Verdict>\n\nRules:\n- fitScore: higher = better match to JD (skills, stack, scope, ownership).\n- riskScore: higher = more risky (inflated buzzwords, weak ownership, shallow infra experience).\n- Be brutally honest but grounded in the evidence from the resume vs JD.\n- If information is missing, say so instead of hallucinating.\n\n---------------- JD START ----------------\n"
  ++ jd ++
  "\n---------------- JD END ------------------\n\n------------- RESUME START --------------\n"
  ++ resumeText ++
  "\n------------- RESUME END ----------------\n"

/-- The skip condition of the loop: `!r.text || !r.text.trim()` — true exactly
when the text trims to the empty string. -/
def isBlank (s : String) : Bool :=
  (jsTrimL s.data).isEmpty

/-- The body of one iteration of the per-resume loop: run the external model
call on the built prompt; on success parse its output, on failure produce the
degraded result with null scores, the fixed fallback verdict and the error
message in the report.  The external call is an explicit parameter
`call : prompt → Except errorMessage rawText`. -/
def analyzeResume (call : String → Except String String) (jd : String)
    (r : ResumeInput) : AnalyzeResult :=
  match call (buildPrompt jd r.text) with
  | .ok raw =>
    let parsed := parseModelOutput raw
    ⟨r.id, parsed.fitScore, parsed.riskScore, parsed.verdict, parsed.report⟩
  | .error msg =>
    ⟨r.id, none, none, "Analysis failed — fallback verdict. Check backend logs.",
      "Raw error: " ++ msg⟩

/-- The per-resume loop of the `/analyze` handler: blank resumes are skipped,
every other resume contributes exactly one result, in order. -/
def processResumes (call : String → Except String String) (jd : String) :
    List ResumeInput → List AnalyzeResult
  | [] => []
  | r :: rest =>
    if isBlank r.text then processResumes call jd rest
    else analyzeResume call jd r :: processResumes call jd rest

/-- The prompts submitted to the external model by the loop, in order: one
call per non-blank resume, none for blank ones (mirrors the single call site
inside the loop). -/
def promptsSent (jd : String) : List ResumeInput → List String
  | [] => []
  | r :: rest =>
    if isBlank r.text then promptsSent jd rest
    else buildPrompt jd r.text :: promptsSent jd rest

/-! ### HTTP layer -/

inductive RespBody where
  | empty
  | text (s : String)
  | jsonError (msg : String)
  | jsonResults (results : List AnalyzeResult)
deriving DecidableEq, Repr

structure HttpResponse where
  status : Nat
  body : RespBody
  headers : List (String × String)
deriving DecidableEq, Repr

/-- The `json` helper of server.ts. -/
def json (data : RespBody) (status : Nat) : HttpResponse :=
  ⟨status, data,
    [("Content-Type", "application/json"), ("Access-Control-Allow-Origin", "*")]⟩

/-- Outcome of `await req.json()`: a parsed body with the two optional fields,
or a thrown parse error. -/
inductive BodyJson where
  | ok (jd : Option String) (resumes : Option (List ResumeInput))
  | malformed

structure HttpRequest where
  method : String
  path : String
  bodyJson : BodyJson

/-- The `serve` handler of server.ts: CORS preflight, the `/analyze` route
with its validation gate and per-resume loop, the 500 catch-all for a body
that fails to parse, and the 404 default. -/
def handleRequest (call : String → Except String String) (req : HttpRequest) :
    HttpResponse :=
  if req.method = "OPTIONS" then
    ⟨204, .empty,
      [("Access-Control-Allow-Origin", "*"),
       ("Access-Control-Allow-Methods", "POST, OPTIONS"),
       ("Access-Control-Allow-Headers", "Content-Type")]⟩
  else if req.path = "/analyze" ∧ req.method = "POST" then
    match req.bodyJson with
    | .malformed =>
        json (.jsonError "Internal server error while analyzing resumes. Check backend logs.") 500
    | .ok jdField resumesField =>
      let jd := (jdField.map jsTrim).getD ""
      let resumes := resumesField.getD []
      if jd = "" then json (.jsonError "Missing \u0027jd\u0027 in request body") 400
      else if resumes.length = 0 then json (.jsonError "Provide at least one resume") 400
      else json (.jsonResults (processResumes call jd resumes)) 200
  else
    ⟨404, .text "Not found", [("Access-Control-Allow-Origin", "*")]⟩

/-- The prompts submitted to the external model while handling a request:
empty on every branch except the successful `/analyze` loop (mirrors the
control flow of the handler, whose only call site is inside the loop). -/
def requestPrompts (req : HttpRequest) : List String :=
  if req.method = "OPTIONS" then []
  else if req.path = "/analyze" ∧ req.method = "POST" then
    match req.bodyJson with
    | .malformed => []
    | .ok jdField resumesField =>
      let jd := (jdField.map jsTrim).getD ""
      let resumes := resumesField.getD []
      if jd = "" then []
      else if resumes.length = 0 then []
      else promptsSent jd resumes
  else []

/-! ### Spec-side predicates -/

/-- Modelled from the spec: a case-insensitive occurrence of `TAG:` (with the
whitespace tolerance around the colon that the source regexes allow) anywhere
in the text. -/
def tagOccursL (tag : List Char) : List Char → Bool
  | [] => tagColonAt tag []
  | c :: cs => tagColonAt tag (c :: cs) || tagOccursL tag cs

/-- Modelled from the spec: a case-insensitive occurrence of the literal
characters `pat` anywhere in the text. -/
def containsCI (pat : List Char) : List Char → Bool
  | [] => (matchCI pat []).isSome
  | c :: cs => (matchCI pat (c :: cs)).isSome || containsCI pat cs

/-- Modelled from the spec: the exact output template
`FIT_SCORE: f\nRISK_SCORE: r\nVERDICT: v\nREPORT:\nbody` of the parser
round-trip property. -/
def tagTemplate (f r v body : String) : String :=
  "FIT_SCORE: " ++ f ++ "\nRISK_SCORE: " ++ r ++ "\nVERDICT: " ++ v ++
    "\nREPORT:\n" ++ body

/-! ### Generic scanning lemmas -/

theorem searchFrom_nil (att : List Char → Option α) : searchFrom att [] = att [] := rfl

theorem searchFrom_cons_none (att : List Char → Option α) {c : Char} {cs : List Char}
    (h : att (c :: cs) = none) : searchFrom att (c :: cs) = searchFrom att cs := by
  simp [searchFrom, h]

theorem searchFrom_cons_some (att : List Char → Option α) {c : Char} {cs : List Char}
    {r : α} (h : att (c :: cs) = some r) : searchFrom att (c :: cs) = some r := by
  simp [searchFrom, h]

/-- Skipping a prefix at whose positions the attempt fails. -/
theorem searchFrom_skip (att : List Char → Option α) (l rest : List Char)
    (h : ∀ i, i < l.length → att (l.drop i ++ rest) = none) :
    searchFrom att (l ++ rest) = searchFrom att rest := by
  induction l with
  | nil => rfl
  | cons c l ih =>
    have h0 := h 0 (by simp)
    simp only [List.drop_zero] at h0
    rw [List.cons_append, searchFrom_cons_none att (by simpa using h0)]
    exact ih fun i hi => by simpa using h (i + 1) (by simpa using Nat.succ_lt_succ hi)

/-- Skipping a chunk none of whose characters can begin a match. -/
theorem searchFrom_skip_heads (att : List Char → Option α) (l rest : List Char)
    (h : ∀ c ∈ l, ∀ cs, att (c :: cs) = none) :
    searchFrom att (l ++ rest) = searchFrom att rest := by
  induction l with
  | nil => rfl
  | cons c l ih =>
    rw [List.cons_append,
      searchFrom_cons_none att (h c (List.mem_cons_self c l) (l ++ rest))]
    exact ih fun c hc cs => h c (List.mem_cons_of_mem _ hc) cs

theorem matchCI_nil (cs : List Char) : matchCI [] cs = some cs := rfl

/-- A mismatch that already happened within `x` survives appending `y`
(`x` being at least as long as the pattern rules out failure by exhaustion). -/
theorem matchCI_none_append {pat x : List Char} (y : List Char)
    (hlen : pat.length ≤ x.length) (h : matchCI pat x = none) :
    matchCI pat (x ++ y) = none := by
  induction pat generalizing x with
  | nil => simp [matchCI] at h
  | cons p pat ih =>
    cases x with
    | nil => simp at hlen
    | cons c x =>
      by_cases hc : charCI p c
      · simp only [matchCI, hc, if_true] at h ⊢
        exact ih (by simpa using hlen) h
      · simp [matchCI, hc]

/-- A successful match over `x ++ y` either already succeeds over `x`, or
consumes all of `x` (which is then shorter than the pattern) and continues
with the pattern's remainder on `y`. -/
theorem matchCI_append (pat x y : List Char)
    (h : (matchCI pat (x ++ y)).isSome = true) :
    (matchCI pat x).isSome = true ∨
      (x.length < pat.length ∧ (matchCI (pat.drop x.length) y).isSome = true) := by
  induction pat generalizing x with
  | nil => left; simp [matchCI]
  | cons p pat ih =>
    cases x with
    | nil => right; exact ⟨by simp, by simpa using h⟩
    | cons c x =>
      by_cases hc : charCI p c
      · simp only [List.cons_append, matchCI, hc, if_true] at h
        rcases ih x h with h1 | ⟨h2, h3⟩
        · left; simpa [matchCI, hc] using h1
        · right
          exact ⟨by simpa using Nat.succ_lt_succ h2, by simpa using h3⟩
      · simp [List.cons_append, matchCI, hc] at h

/-- A full case-insensitive consumption of `x` extends over any continuation. -/
theorem matchCI_extend {pat x : List Char} (y : List Char)
    (h : matchCI pat x = some []) : matchCI pat (x ++ y) = some y := by
  induction pat generalizing x with
  | nil =>
    simp only [matchCI_nil, Option.some.injEq] at h
    subst h; rfl
  | cons p pat ih =>
    cases x with
    | nil => simp [matchCI] at h
    | cons c x =>
      by_cases hc : charCI p c
      · simp only [matchCI, hc, if_true] at h ⊢
        exact ih h
      · simp [matchCI, hc] at h

theorem containsCI_of_drop {pat l : List Char} (i : Nat)
    (h : (matchCI pat (l.drop i)).isSome = true) : containsCI pat l = true := by
  induction l generalizing i with
  | nil => simpa [containsCI] using h
  | cons c cs ih =>
    cases i with
    | zero => simp only [List.drop_zero] at h; simp [containsCI, h]
    | succ j =>
      simp only [List.drop_succ_cons] at h
      simp [containsCI, ih j h]

/-! ### Character class facts -/

theorem isJsWs_of_digit {c : Char} (h : isDigitC c = true) : isJsWs c = false := by
  simp only [isDigitC, Bool.and_eq_true, decide_eq_true_eq] at h
  simp only [isJsWs, Bool.or_eq_false_iff, beq_eq_false_iff_ne, ne_eq,
    Bool.and_eq_false_iff, decide_eq_false_iff_not, not_le]
  omega

theorem isDigitC_false_of_lt {c : Char} (h : c.toNat < 48) : isDigitC c = false := by
  simp only [isDigitC, Bool.and_eq_false_iff, decide_eq_false_iff_not, not_le]
  omega

theorem lowerNat_of_digit {c : Char} (h : isDigitC c = true) : lowerNat c = c.toNat := by
  simp only [isDigitC, Bool.and_eq_true, decide_eq_true_eq] at h
  simp only [lowerNat, ite_eq_right_iff]
  omega

theorem charCI_letter_digit {a c : Char} (ha : 97 ≤ lowerNat a) (h : isDigitC c = true) :
    charCI a c = false := by
  have h2 := lowerNat_of_digit h
  simp only [isDigitC, Bool.and_eq_true, decide_eq_true_eq] at h
  simp only [charCI, beq_eq_false_iff_ne, ne_eq]
  omega

/-! ### List helpers -/

theorem takeWhile_append_all {p : Char → Bool} {l : List Char} (r : List Char)
    (h : ∀ c ∈ l, p c = true) :
    (l ++ r).takeWhile p = l ++ r.takeWhile p := by
  induction l with
  | nil => rfl
  | cons c l ih =>
    have hc := h c (List.mem_cons_self c l)
    simp only [List.cons_append, List.takeWhile_cons, hc, if_true]
    rw [ih fun c hc => h c (List.mem_cons_of_mem _ hc)]

theorem dropWhile_append_all {p : Char → Bool} {l : List Char} (r : List Char)
    (h : ∀ c ∈ l, p c = true) :
    (l ++ r).dropWhile p = r.dropWhile p := by
  induction l with
  | nil => rfl
  | cons c l ih =>
    have hc := h c (List.mem_cons_self c l)
    simp only [List.cons_append, List.dropWhile_cons, hc, if_true]
    exact ih fun c hc => h c (List.mem_cons_of_mem _ hc)

theorem takeWhile_of_all {p : Char → Bool} {l : List Char}
    (h : ∀ c ∈ l, p c = true) : l.takeWhile p = l := by
  induction l with
  | nil => rfl
  | cons c l ih =>
    simp only [List.takeWhile_cons, h c (List.mem_cons_self c l), if_true]
    rw [ih fun c hc => h c (List.mem_cons_of_mem _ hc)]

theorem dropWhile_cons_of_neg {p : Char → Bool} {c : Char} (cs : List Char)
    (h : p c = false) : (c :: cs).dropWhile p = c :: cs := by
  simp [List.dropWhile_cons, h]

theorem takeWhile_cons_of_neg {p : Char → Bool} {c : Char} (cs : List Char)
    (h : p c = false) : (c :: cs).takeWhile p = [] := by
  simp [List.takeWhile_cons, h]

/-- Leading whitespace does not change the JS trim. -/
theorem jsTrimL_ws_append {w : List Char} (l : List Char)
    (h : ∀ c ∈ w, isJsWs c = true) : jsTrimL (w ++ l) = jsTrimL l := by
  simp only [jsTrimL, dropWhile_append_all l h]

/-! ### String-literal data expansions -/

theorem fitTag_data : "FIT_SCORE".data = ['F', 'I', 'T', '_', 'S', 'C', 'O', 'R', 'E'] := rfl

theorem riskTag_data : "RISK_SCORE".data = ['R', 'I', 'S', 'K', '_', 'S', 'C', 'O', 'R', 'E'] := rfl

theorem verdictTag_data : "VERDICT".data = ['V', 'E', 'R', 'D', 'I', 'C', 'T'] := rfl

theorem reportTag_data : "REPORT".data = ['R', 'E', 'P', 'O', 'R', 'T'] := rfl

/-! ### Head-mismatch refutations of the match attempts -/

theorem scoreAttempt_nil {tag : List Char} {t : Char} {ts : List Char}
    (htag : tag = t :: ts) : scoreAttempt tag [] = none := by
  simp [scoreAttempt, htag, matchCI]

theorem scoreAttempt_head {tag : List Char} {t : Char} {ts : List Char}
    (htag : tag = t :: ts) {c : Char} (cs : List Char) (h : charCI t c = false) :
    scoreAttempt tag (c :: cs) = none := by
  simp [scoreAttempt, htag, matchCI, h]

theorem verdictAttempt_head {c : Char} (cs : List Char) (h : charCI 'V' c = false) :
    verdictAttempt (c :: cs) = none := by
  simp [verdictAttempt, verdictTag_data, matchCI, h]

theorem reportAttempt_head {c : Char} (cs : List Char) (h : charCI 'R' c = false) :
    reportAttempt (c :: cs) = none := by
  simp [reportAttempt, tagColonAt, reportTag_data, matchCI, h]

/-! ### Attempt success forces the tag-with-colon pattern -/

theorem tagColonAt_of_scoreAttempt {tag cs : List Char}
    (h : (scoreAttempt tag cs).isSome = true) : tagColonAt tag cs = true := by
  unfold scoreAttempt at h
  unfold tagColonAt
  cases hm : matchCI tag cs with
  | none => simp [hm] at h
  | some rest =>
    simp only [hm] at h ⊢
    cases hd : rest.dropWhile isJsWs with
    | nil => simp [hd] at h
    | cons c rest2 =>
      simp only [hd] at h ⊢
      by_cases hcol : c = ':'
      · simp [hcol]
      · simp [hcol] at h

theorem tagColonAt_of_verdictAttempt {cs : List Char}
    (h : (verdictAttempt cs).isSome = true) : tagColonAt "VERDICT".data cs = true := by
  unfold verdictAttempt at h
  unfold tagColonAt
  cases hm : matchCI "VERDICT".data cs with
  | none => simp [hm] at h
  | some rest =>
    simp only [hm] at h ⊢
    cases hd : rest.dropWhile isJsWs with
    | nil => simp [hd] at h
    | cons c rest2 =>
      simp only [hd] at h ⊢
      by_cases hcol : c = ':'
      · simp [hcol]
      · simp [hcol] at h

theorem tagColonAt_of_reportAttempt {cs rest : List Char}
    (h : reportAttempt cs = some rest) : tagColonAt "REPORT".data cs = true := by
  unfold reportAttempt at h
  by_cases ht : tagColonAt "REPORT".data cs
  · exact ht
  · simp [ht] at h

/-- If every successful attempt implies the tag pattern at that position, a
successful search implies the tag pattern occurs somewhere. -/
theorem tagOccursL_of_searchFrom {att : List Char → Option α} {tag : List Char}
    (hatt : ∀ cs, (att cs).isSome = true → tagColonAt tag cs = true) :
    ∀ cs, (searchFrom att cs).isSome = true → tagOccursL tag cs = true := by
  intro cs
  induction cs with
  | nil =>
    intro h
    simpa [tagOccursL] using hatt [] (by simpa [searchFrom] using h)
  | cons c cs ih =>
    intro h
    simp only [tagOccursL, Bool.or_eq_true]
    cases ha : att (c :: cs) with
    | some r => exact Or.inl (hatt _ (by simp [ha]))
    | none =>
      rw [searchFrom_cons_none att ha] at h
      exact Or.inr (ih h)

/-! ### Orchestrator lemmas -/

theorem processResumes_eq_map (call : String → Except String String) (jd : String)
    (resumes : List ResumeInput) :
    processResumes call jd resumes =
      (resumes.filter (fun r => !isBlank r.text)).map (analyzeResume call jd) := by
  induction resumes with
  | nil => rfl
  | cons r rest ih =>
    by_cases hb : isBlank r.text
    · simp [processResumes, hb, List.filter_cons, ih]
    · simp [processResumes, hb, List.filter_cons, ih]

theorem promptsSent_eq_map (jd : String) (resumes : List ResumeInput) :
    promptsSent jd resumes =
      (resumes.filter (fun r => !isBlank r.text)).map (fun r => buildPrompt jd r.text) := by
  induction resumes with
  | nil => rfl
  | cons r rest ih =>
    by_cases hb : isBlank r.text
    · simp [promptsSent, hb, List.filter_cons, ih]
    · simp [promptsSent, hb, List.filter_cons, ih]

theorem analyzeResume_error (call : String → Except String String) (jd : String)
    (r : ResumeInput) (e : String) (h : call (buildPrompt jd r.text) = Except.error e) :
    analyzeResume call jd r =
      ⟨r.id, none, none, "Analysis failed — fallback verdict. Check backend logs.",
        "Raw error: " ++ e⟩ := by
  simp [analyzeResume, h]

theorem handleRequest_analyze_ok (call : String → Except String String)
    (jdField : Option String) (resumesField : Option (List ResumeInput))
    (hjd : (jdField.map jsTrim).getD "" ≠ "") (hres : resumesField.getD [] ≠ []) :
    handleRequest call ⟨"POST", "/analyze", .ok jdField resumesField⟩ =
      json (.jsonResults (processResumes call ((jdField.map jsTrim).getD "")
        (resumesField.getD []))) 200 := by
  simp +decide [handleRequest, hjd, List.length_eq_zero, hres]

theorem requestPrompts_analyze_ok (jdField : Option String)
    (resumesField : Option (List ResumeInput))
    (hjd : (jdField.map jsTrim).getD "" ≠ "") (hres : resumesField.getD [] ≠ []) :
    requestPrompts ⟨"POST", "/analyze", .ok jdField resumesField⟩ =
      promptsSent ((jdField.map jsTrim).getD "") (resumesField.getD []) := by
  simp +decide [requestPrompts, hjd, List.length_eq_zero, hres]

/-! ## Claim C1 -/

/-- Claim C1: for every request that passes validation, a per-candidate model
call failure yields a degraded result for that candidate (null scores, the
fixed fallback verdict, the error message in the report) in the 200 result
list, and the loop still produces a result for every non-blank resume. -/
theorem claim_failure_isolation (call : String → Except String String)
    (jdField : Option String) (resumesField : Option (List ResumeInput))
    (hjd : (jdField.map jsTrim).getD "" ≠ "") (hres : resumesField.getD [] ≠ []) :
    handleRequest call ⟨"POST", "/analyze", .ok jdField resumesField⟩ =
      json (.jsonResults (processResumes call ((jdField.map jsTrim).getD "")
        (resumesField.getD []))) 200 ∧
    (handleRequest call ⟨"POST", "/analyze", .ok jdField resumesField⟩).status = 200 ∧
    (∀ r ∈ resumesField.getD [], isBlank r.text = false →
      ∀ e, call (buildPrompt ((jdField.map jsTrim).getD "") r.text) = Except.error e →
        (⟨r.id, none, none, "Analysis failed — fallback verdict. Check backend logs.",
          "Raw error: " ++ e⟩ : AnalyzeResult) ∈
          processResumes call ((jdField.map jsTrim).getD "") (resumesField.getD [])) ∧
    (processResumes call ((jdField.map jsTrim).getD "") (resumesField.getD [])).length =
      ((resumesField.getD []).filter (fun r => !isBlank r.text)).length := by
  refine ⟨handleRequest_analyze_ok call jdField resumesField hjd hres, ?_, ?_, ?_⟩
  · rw [handleRequest_analyze_ok call jdField resumesField hjd hres]; rfl
  · intro r hr hb e he
    rw [processResumes_eq_map]
    exact List.mem_map.mpr ⟨r, List.mem_filter.mpr ⟨hr, by simp [hb]⟩,
      (analyzeResume_error call _ r e he).symm ▸ rfl⟩
  · rw [processResumes_eq_map, List.length_map]

theorem claim_failure_isolation_witness :
    ((some "jd" : Option String).map jsTrim).getD "" ≠ "" ∧
    (some [(⟨"A", "text A"⟩ : ResumeInput)] : Option (List ResumeInput)).getD [] ≠ [] ∧
    (handleRequest (fun _ => Except.error "boom")
        ⟨"POST", "/analyze", .ok (some "jd") (some [⟨"A", "text A"⟩])⟩ =
      json (.jsonResults [⟨"A", none, none,
        "Analysis failed — fallback verdict. Check backend logs.",
        "Raw error: boom"⟩]) 200) := by
  refine ⟨by decide, by simp, ?_⟩
  have h := claim_failure_isolation (fun _ => Except.error "boom")
    (some "jd") (some [⟨"A", "text A"⟩]) (by decide) (by simp)
  rw [h.1]
  rfl

/-! ## Claim C2 -/

/-- Claim C2: the loop produces exactly one result per non-blank resume, in
input order (ids preserved), skips blank resumes silently with no model call,
and `results.length` equals the number of non-blank resumes. -/
theorem claim_skip_blank_invariant (call : String → Except String String)
    (jd : String) (resumes : List ResumeInput) :
    processResumes call jd resumes =
      (resumes.filter (fun r => !isBlank r.text)).map (analyzeResume call jd) ∧
    (processResumes call jd resumes).map (fun a => a.id) =
      (resumes.filter (fun r => !isBlank r.text)).map (fun r => r.id) ∧
    (processResumes call jd resumes).length =
      (resumes.filter (fun r => !isBlank r.text)).length ∧
    promptsSent jd resumes =
      (resumes.filter (fun r => !isBlank r.text)).map (fun r => buildPrompt jd r.text) := by
  refine ⟨processResumes_eq_map call jd resumes, ?_, ?_, promptsSent_eq_map jd resumes⟩
  · rw [processResumes_eq_map, List.map_map]
    exact List.map_congr_left fun r _ => by
      cases h : call (buildPrompt jd r.text) <;> simp [analyzeResume, h]
  · rw [processResumes_eq_map, List.length_map]

/-! ## Claim C4 -/

/-- Claim C4: a blank (or missing) job description is rejected with the fixed
400 message, and — the job description being present — an empty resume list is
rejected with its fixed 400 message; in both cases no model call is made. -/
theorem claim_validation_gate (call : String → Except String String)
    (jdField : Option String) (resumesField : Option (List ResumeInput)) :
    ((jdField.map jsTrim).getD "" = "" →
      handleRequest call ⟨"POST", "/analyze", .ok jdField resumesField⟩ =
        json (.jsonError "Missing \u0027jd\u0027 in request body") 400 ∧
      requestPrompts ⟨"POST", "/analyze", .ok jdField resumesField⟩ = []) ∧
    ((jdField.map jsTrim).getD "" ≠ "" → resumesField.getD [] = [] →
      handleRequest call ⟨"POST", "/analyze", .ok jdField resumesField⟩ =
        json (.jsonError "Provide at least one resume") 400 ∧
      requestPrompts ⟨"POST", "/analyze", .ok jdField resumesField⟩ = []) := by
  constructor
  · intro h
    constructor
    · simp +decide [handleRequest, h]
    · simp +decide [requestPrompts, h]
  · intro h1 h2
    constructor
    · simp +decide [handleRequest, h1, h2]
    · simp +decide [requestPrompts, h1, h2]

theorem claim_validation_gate_witness :
    (handleRequest (fun _ => Except.error "unused") ⟨"POST", "/analyze", .ok none none⟩ =
      json (.jsonError "Missing \u0027jd\u0027 in request body") 400 ∧
     requestPrompts ⟨"POST", "/analyze", .ok none none⟩ = []) ∧
    (handleRequest (fun _ => Except.error "unused")
        ⟨"POST", "/analyze", .ok (some "Backend engineer") (some [])⟩ =
      json (.jsonError "Provide at least one resume") 400 ∧
     requestPrompts ⟨"POST", "/analyze", .ok (some "Backend engineer") (some [])⟩ = []) :=
  ⟨(claim_validation_gate (fun _ => Except.error "unused") none none).1 rfl,
   (claim_validation_gate (fun _ => Except.error "unused")
      (some "Backend engineer") (some [])).2 (by decide) rfl⟩

/-! ## Claim C10 -/

/-- Claim C10: a request with a non-blank job description and a non-empty
resume list all of whose texts are blank passes validation, makes no model
call, and returns 200 with an empty result list. -/
theorem claim_all_blank_empty_results (call : String → Except String String)
    (jdField : Option String) (resumesField : Option (List ResumeInput))
    (hjd : (jdField.map jsTrim).getD "" ≠ "") (hres : resumesField.getD [] ≠ [])
    (hblank : ∀ r ∈ resumesField.getD [], isBlank r.text = true) :
    handleRequest call ⟨"POST", "/analyze", .ok jdField resumesField⟩ =
      json (.jsonResults []) 200 ∧
    requestPrompts ⟨"POST", "/analyze", .ok jdField resumesField⟩ = [] := by
  have hfil : (resumesField.getD []).filter (fun r => !isBlank r.text) = [] :=
    List.filter_eq_nil_iff.mpr fun r hr => by simp [hblank r hr]
  constructor
  · rw [handleRequest_analyze_ok call jdField resumesField hjd hres,
      processResumes_eq_map, hfil]
    rfl
  · rw [requestPrompts_analyze_ok jdField resumesField hjd hres,
      promptsSent_eq_map, hfil]
    rfl

theorem claim_all_blank_empty_results_witness :
    handleRequest (fun _ => Except.error "unused")
        ⟨"POST", "/analyze", .ok (some "jd") (some [⟨"A", "   "⟩, ⟨"B", ""⟩])⟩ =
      json (.jsonResults []) 200 ∧
    requestPrompts ⟨"POST", "/analyze", .ok (some "jd") (some [⟨"A", "   "⟩, ⟨"B", ""⟩])⟩ = [] :=
  claim_all_blank_empty_results (fun _ => Except.error "unused")
    (some "jd") (some [⟨"A", "   "⟩, ⟨"B", ""⟩]) (by decide) (by simp)
    (by decide)

/-! ### Successful runs of the match attempts -/

theorem asString_data (l : List Char) : l.asString.data = l := rfl

theorem searchFrom_head {att : List Char → Option α} {l : List Char} {r : α}
    (hl : l ≠ []) (h : att l = some r) : searchFrom att l = some r := by
  cases l with
  | nil => exact absurd rfl hl
  | cons c cs => exact searchFrom_cons_some att h

/-- Projections of `parseModelOutput`. -/
theorem parse_fitScore (raw : String) :
    (parseModelOutput raw).fitScore = findScore "FIT_SCORE" raw.data := rfl

theorem parse_riskScore (raw : String) :
    (parseModelOutput raw).riskScore = findScore "RISK_SCORE" raw.data := rfl

theorem parse_verdict_some {raw : String} {cap : List Char}
    (h : findVerdict raw.data = some cap) :
    (parseModelOutput raw).verdict = (jsTrimL cap).asString := by
  simp [parseModelOutput, h]

theorem parse_verdict_none {raw : String} (h : findVerdict raw.data = none) :
    (parseModelOutput raw).verdict = "No clear verdict parsed" := by
  simp [parseModelOutput, h]

theorem parse_report_none {raw : String} (h : searchReport raw.data = none) :
    (parseModelOutput raw).report = raw := by
  simp [parseModelOutput, h]

theorem parse_report_newline {raw : String} {afterM : List Char} {i : Nat}
    (h : searchReport raw.data = some afterM)
    (hi : afterM.findIdx? (· == '\n') = some i) :
    (parseModelOutput raw).report = (jsTrimL (afterM.drop (i + 1))).asString := by
  simp [parseModelOutput, h, hi]

theorem parse_report_no_newline {raw : String} {afterM : List Char}
    (h : searchReport raw.data = some afterM)
    (hi : afterM.findIdx? (· == '\n') = none) :
    (parseModelOutput raw).report = (jsTrimL afterM).asString := by
  simp [parseModelOutput, h, hi]

/-- A successful run of `/TAG\s*:\s*(\d+)/i` at the start: the tag matched by
`pre`, no whitespace before the colon, whitespace `ws2` after it, then the
digit run `ds`, then a remainder that starts with no digit. -/
theorem scoreAttempt_run {tag pre ws2 ds rest : List Char}
    (hm : matchCI tag pre = some [])
    (hws2 : ∀ c ∈ ws2, isJsWs c = true)
    (hds : ds ≠ []) (hdig : ∀ c ∈ ds, isDigitC c = true)
    (hstop : rest.takeWhile isDigitC = []) :
    scoreAttempt tag (pre ++ ':' :: (ws2 ++ (ds ++ rest))) = some (jsNumber ds) := by
  obtain ⟨d, ds', rfl⟩ := List.exists_cons_of_ne_nil hds
  unfold scoreAttempt
  rw [matchCI_extend _ hm]
  simp only
  rw [dropWhile_cons_of_neg _ (by decide : isJsWs ':' = false)]
  simp only [if_pos rfl]
  rw [dropWhile_append_all _ hws2, List.cons_append,
    dropWhile_cons_of_neg _ (isJsWs_of_digit (hdig d (List.mem_cons_self d ds'))),
    ← List.cons_append, takeWhile_append_all _ hdig, hstop, List.append_nil]
  simp

/-- The corresponding first-position success of the whole search. -/
theorem findScore_run {tag : String} {pre ws2 ds rest : List Char}
    (hm : matchCI tag.data pre = some []) (hpre : pre ≠ [])
    (hws2 : ∀ c ∈ ws2, isJsWs c = true)
    (hds : ds ≠ []) (hdig : ∀ c ∈ ds, isDigitC c = true)
    (hstop : rest.takeWhile isDigitC = []) :
    findScore tag (pre ++ ':' :: (ws2 ++ (ds ++ rest))) = some (jsNumber ds) :=
  searchFrom_head (by simp [hpre]) (scoreAttempt_run hm hws2 hds hdig hstop)

/-- Digit runs whose value stays below `2^53` are read exactly. -/
theorem jsNumber_exact {ds : List Char} (h : natOfDigits ds < 2 ^ 53) :
    jsNumber ds = .nat (natOfDigits ds) := by
  rw [jsNumber, roundToDouble, if_pos h]

/-! ## Claim C8 -/

set_option maxRecDepth 100000 in
/-- Claim C8 counterexample: the claim quantifies over every integer `n`, but
`Number` rounds the captured digits to the nearest double, so at
`n = 2^53 + 1 = 9007199254740993` the program parses
`FIT_SCORE:9007199254740993` to `9007199254740992`, not to `n`. -/
theorem claim_tag_case_ws_insensitive_cex :
    (parseModelOutput "FIT_SCORE:9007199254740993").fitScore =
      some (.nat 9007199254740992) ∧
    (parseModelOutput "FIT_SCORE:9007199254740993").fitScore ≠
      some (.nat 9007199254740993) := by
  constructor
  · decide
  · decide

/-- Claim C8 as amended: tag matching is case-insensitive and
whitespace-tolerant around the colon: for any decimal numeral `ds` of an
integer `n` below `2^53` (the range `Number` reads exactly), both
`fit_score:   n` and `FIT_SCORE:n` parse to fit score `n`, and identically
for the risk score. -/
theorem claim_tag_case_ws_insensitive (ds : List Char) (n : Nat)
    (h1 : ds ≠ []) (h2 : ∀ c ∈ ds, isDigitC c = true) (h3 : natOfDigits ds = n)
    (h4 : n < 2 ^ 53) :
    (parseModelOutput ("fit_score:   " ++ ds.asString)).fitScore = some (.nat n) ∧
    (parseModelOutput ("FIT_SCORE:" ++ ds.asString)).fitScore = some (.nat n) ∧
    (parseModelOutput ("risk_score:   " ++ ds.asString)).riskScore = some (.nat n) ∧
    (parseModelOutput ("RISK_SCORE:" ++ ds.asString)).riskScore = some (.nat n) := by
  subst h3
  refine ⟨?_, ?_, ?_, ?_⟩
  · rw [parse_fitScore, String.data_append, asString_data]
    have e : "fit_score:   ".data ++ ds =
        ['f', 'i', 't', '_', 's', 'c', 'o', 'r', 'e'] ++ ':' :: ([' ', ' ', ' '] ++ (ds ++ [])) := by
      simp [show "fit_score:   ".data =
        ['f', 'i', 't', '_', 's', 'c', 'o', 'r', 'e', ':', ' ', ' ', ' '] from rfl]
    rw [e, findScore_run (by decide) (by decide) (by decide) h1 h2 List.takeWhile_nil,
      jsNumber_exact h4]
  · rw [parse_fitScore, String.data_append, asString_data]
    have e : "FIT_SCORE:".data ++ ds =
        ['F', 'I', 'T', '_', 'S', 'C', 'O', 'R', 'E'] ++ ':' :: ([] ++ (ds ++ [])) := by
      simp [show "FIT_SCORE:".data =
        ['F', 'I', 'T', '_', 'S', 'C', 'O', 'R', 'E', ':'] from rfl]
    rw [e, findScore_run (by decide) (by decide) (by decide) h1 h2 List.takeWhile_nil,
      jsNumber_exact h4]
  · rw [parse_riskScore, String.data_append, asString_data]
    have e : "risk_score:   ".data ++ ds =
        ['r', 'i', 's', 'k', '_', 's', 'c', 'o', 'r', 'e'] ++ ':' :: ([' ', ' ', ' '] ++ (ds ++ [])) := by
      simp [show "risk_score:   ".data =
        ['r', 'i', 's', 'k', '_', 's', 'c', 'o', 'r', 'e', ':', ' ', ' ', ' '] from rfl]
    rw [e, findScore_run (by decide) (by decide) (by decide) h1 h2 List.takeWhile_nil,
      jsNumber_exact h4]
  · rw [parse_riskScore, String.data_append, asString_data]
    have e : "RISK_SCORE:".data ++ ds =
        ['R', 'I', 'S', 'K', '_', 'S', 'C', 'O', 'R', 'E'] ++ ':' :: ([] ++ (ds ++ [])) := by
      simp [show "RISK_SCORE:".data =
        ['R', 'I', 'S', 'K', '_', 'S', 'C', 'O', 'R', 'E', ':'] from rfl]
    rw [e, findScore_run (by decide) (by decide) (by decide) h1 h2 List.takeWhile_nil,
      jsNumber_exact h4]

theorem claim_tag_case_ws_insensitive_witness :
    (['7'] : List Char) ≠ [] ∧ (7 : Nat) < 2 ^ 53 ∧
    (parseModelOutput ("fit_score:   " ++ ['7'].asString)).fitScore = some (.nat 7) ∧
    (parseModelOutput ("FIT_SCORE:" ++ ['7'].asString)).fitScore = some (.nat 7) ∧
    (parseModelOutput ("risk_score:   " ++ ['7'].asString)).riskScore = some (.nat 7) ∧
    (parseModelOutput ("RISK_SCORE:" ++ ['7'].asString)).riskScore = some (.nat 7) := by
  have h := claim_tag_case_ws_insensitive ['7'] 7 (by decide) (by decide) (by decide)
    (by decide)
  exact ⟨by decide, by decide, h.1, h.2.1, h.2.2.1, h.2.2.2⟩

/-! ## Claim C7 -/

theorem searchFrom_none_of_no_tag {att : List Char → Option α} {tag : List Char}
    (hatt : ∀ cs, (att cs).isSome = true → tagColonAt tag cs = true)
    (cs : List Char) (h : tagOccursL tag cs = false) : searchFrom att cs = none := by
  cases hs : searchFrom att cs with
  | none => rfl
  | some r =>
    rw [tagOccursL_of_searchFrom hatt cs (by simp [hs])] at h
    cases h

theorem isSome_reportAttempt {cs : List Char}
    (h : (reportAttempt cs).isSome = true) : tagColonAt "REPORT".data cs = true := by
  unfold reportAttempt at h
  by_cases ht : tagColonAt "REPORT".data cs
  · exact ht
  · simp [ht] at h

/-- Claim C7: a raw text containing none of the four tags (with the colon,
case-insensitively, whitespace-tolerantly) parses to null scores, the fixed
fallback verdict, and a report equal to the entire raw text, unmodified. -/
theorem claim_no_tags_failopen (raw : String)
    (h1 : tagOccursL "FIT_SCORE".data raw.data = false)
    (h2 : tagOccursL "RISK_SCORE".data raw.data = false)
    (h3 : tagOccursL "VERDICT".data raw.data = false)
    (h4 : tagOccursL "REPORT".data raw.data = false) :
    parseModelOutput raw = ⟨none, none, "No clear verdict parsed", raw⟩ := by
  have hf : findScore "FIT_SCORE" raw.data = none :=
    searchFrom_none_of_no_tag (fun _ h => tagColonAt_of_scoreAttempt h) _ h1
  have hk : findScore "RISK_SCORE" raw.data = none :=
    searchFrom_none_of_no_tag (fun _ h => tagColonAt_of_scoreAttempt h) _ h2
  have hv : findVerdict raw.data = none :=
    searchFrom_none_of_no_tag (fun _ h => tagColonAt_of_verdictAttempt h) _ h3
  have hrep : searchReport raw.data = none :=
    searchFrom_none_of_no_tag (fun _ h => isSome_reportAttempt h) _ h4
  simp [parseModelOutput, findScore, hv, hrep]
  exact ⟨by simpa [findScore] using hf, by simpa [findScore] using hk⟩

theorem claim_no_tags_failopen_witness :
    tagOccursL "FIT_SCORE".data "some plain prose  ".data = false ∧
    parseModelOutput "some plain prose  " =
      ⟨none, none, "No clear verdict parsed", "some plain prose  "⟩ :=
  ⟨by decide,
    claim_no_tags_failopen "some plain prose  " (by decide) (by decide) (by decide) (by decide)⟩

/-! ## Claim C5 -/

/-- Claim C5 counterexample: with the marker present and no line break after
it, the returned report DOES include the marker text itself: the source slices
from the match index (`raw.slice(reportIndex)`), not from after the marker. -/
theorem claim_report_no_newline_cex :
    (parseModelOutput "REPORT: hello").report = "REPORT: hello" ∧
    (parseModelOutput "REPORT: hello").report ≠ "hello" := by
  constructor
  · decide
  · decide

/-- Claim C5 as amended: if the first report marker occurrence (no `R` earlier
in the text) is followed by no newline character, the report is everything
FROM THE START OF THE MARKER onward — marker included — trimmed. -/
theorem claim_report_no_newline (pre tail : String)
    (hpre : ∀ c ∈ pre.data, charCI 'R' c = false)
    (htail : ∀ c ∈ tail.data, (c == '\n') = false) :
    (parseModelOutput (pre ++ "REPORT:" ++ tail)).report = jsTrim ("REPORT:" ++ tail) := by
  have hdata : (pre ++ "REPORT:" ++ tail).data = pre.data ++ ("REPORT:".data ++ tail.data) := by
    rw [String.data_append, String.data_append, List.append_assoc]
  have htag : tagColonAt "REPORT".data ("REPORT:".data ++ tail.data) = true := by
    have e : "REPORT:".data ++ tail.data = "REPORT".data ++ (':' :: tail.data) := by
      simp [show "REPORT:".data = "REPORT".data ++ [':'] from rfl]
    unfold tagColonAt
    rw [e, matchCI_extend _ (by decide)]
    simp only
    rw [dropWhile_cons_of_neg _ (by decide : isJsWs ':' = false)]
    simp
  have hatt : reportAttempt ("REPORT:".data ++ tail.data) =
      some ("REPORT:".data ++ tail.data) := by
    unfold reportAttempt
    rw [if_pos htag]
  have hsearch : searchReport (pre ++ "REPORT:" ++ tail).data =
      some ("REPORT:".data ++ tail.data) := by
    rw [hdata]
    unfold searchReport
    rw [searchFrom_skip_heads _ _ _ (fun c hc cs => reportAttempt_head cs (hpre c hc))]
    exact searchFrom_head
      (by simp [show "REPORT:".data = ['R', 'E', 'P', 'O', 'R', 'T', ':'] from rfl]) hatt
  have hidx : ("REPORT:".data ++ tail.data).findIdx? (· == '\n') = none := by
    rw [List.findIdx?_eq_none_iff]
    intro c hc
    rcases List.mem_append.mp hc with h | h
    · exact (by decide : ∀ c ∈ "REPORT:".data, (c == '\n') = false) c h
    · exact htail c h
  rw [parse_report_no_newline hsearch hidx, jsTrim, String.data_append]

theorem claim_report_no_newline_witness :
    (parseModelOutput ("" ++ "REPORT:" ++ " hello")).report = jsTrim ("REPORT:" ++ " hello") :=
  claim_report_no_newline "" " hello" (by decide) (by decide)

/-! ## Claim C6 -/

theorem dropWhile_head_false {p : Char → Bool} :
    ∀ {l : List Char} {c : Char} {t : List Char}, l.dropWhile p = c :: t → p c = false := by
  intro l
  induction l with
  | nil => intro c t h; cases h
  | cons a l ih =>
    intro c t h
    by_cases hp : p a
    · rw [List.dropWhile_cons, if_pos hp] at h
      exact ih h
    · rw [List.dropWhile_cons, if_neg hp] at h
      cases h
      simpa using hp

/-- Claim C6 counterexample: the `\s*` after the colon in
`/VERDICT\s*:\s*(.+)/i` crosses line breaks, so on `"VERDICT:\nsneaky"` the
parsed verdict is the text of the NEXT line, not the (empty) remainder of the
line carrying the tag. -/
theorem claim_verdict_same_line_cex :
    (parseModelOutput "VERDICT:\nsneaky").verdict = "sneaky" ∧
    (parseModelOutput "VERDICT:\nsneaky").verdict ≠ "" := by
  constructor
  · decide
  · decide

/-- Claim C6 as amended: (1) when the first `VERDICT:` occurrence (no `V`
earlier) is followed on its own line by at least one non-whitespace character,
the verdict is that line's remainder after the colon, trimmed; whitespace
after the colon — including line breaks — is skipped by the matcher, which is
why the restriction to a non-blank same-line remainder is needed.  (2) When
the tag pattern does not occur at all, the verdict is the fixed fallback
string. -/
theorem claim_verdict_semantics :
    (∀ pre v suffix : String,
      (∀ c ∈ pre.data, charCI 'V' c = false) →
      (∀ c ∈ v.data, isLineTerm c = false) →
      v.data.dropWhile isJsWs ≠ [] →
      suffix.data.takeWhile (fun c => !isLineTerm c) = [] →
      (parseModelOutput (pre ++ "VERDICT:" ++ v ++ suffix)).verdict = jsTrim v) ∧
    (∀ raw : String, tagOccursL "VERDICT".data raw.data = false →
      (parseModelOutput raw).verdict = "No clear verdict parsed") := by
  constructor
  · intro pre v suffix hpre hv1 hv2 hsuf
    obtain ⟨c, t, hct⟩ := List.exists_cons_of_ne_nil hv2
    have hcw : isJsWs c = false := dropWhile_head_false hct
    have hvsplit : v.data = v.data.takeWhile isJsWs ++ (c :: t) := by
      conv_lhs => rw [← List.takeWhile_append_dropWhile isJsWs v.data]
      rw [hct]
    have hwall : ∀ x ∈ v.data.takeWhile isJsWs, isJsWs x = true :=
      fun x hx => List.mem_takeWhile_imp hx
    have hctmem : ∀ x ∈ c :: t, isLineTerm x = false := by
      intro x hx
      exact hv1 x (hvsplit ▸ List.mem_append.mpr (Or.inr hx))
    have hatt : verdictAttempt ("VERDICT:".data ++ (v.data ++ suffix.data)) =
        some (c :: t) := by
      have e : "VERDICT:".data ++ (v.data ++ suffix.data) =
          "VERDICT".data ++ (':' :: (v.data ++ suffix.data)) := by
        simp [show "VERDICT:".data = "VERDICT".data ++ [':'] from rfl]
      unfold verdictAttempt
      rw [e, matchCI_extend _ (by decide)]
      simp only
      rw [dropWhile_cons_of_neg _ (by decide : isJsWs ':' = false)]
      simp only [if_pos rfl]
      rw [show v.data ++ suffix.data =
            v.data.takeWhile isJsWs ++ ((c :: t) ++ suffix.data) by
          rw [← List.append_assoc, ← hvsplit],
        dropWhile_append_all _ hwall, List.cons_append,
        dropWhile_cons_of_neg _ hcw]
      simp only
      rw [← List.cons_append,
        takeWhile_append_all _ (fun x hx => by simp [hctmem x hx]),
        hsuf, List.append_nil]
      simp
    have hsearch : findVerdict (pre ++ "VERDICT:" ++ v ++ suffix).data = some (c :: t) := by
      have hdata : (pre ++ "VERDICT:" ++ v ++ suffix).data =
          pre.data ++ ("VERDICT:".data ++ (v.data ++ suffix.data)) := by
        rw [String.data_append, String.data_append, String.data_append,
          List.append_assoc, List.append_assoc]
      rw [hdata]
      unfold findVerdict
      rw [searchFrom_skip_heads _ _ _ (fun x hx cs => verdictAttempt_head cs (hpre x hx))]
      exact searchFrom_head
        (by simp [show "VERDICT:".data = ['V', 'E', 'R', 'D', 'I', 'C', 'T', ':'] from rfl]) hatt
    rw [parse_verdict_some hsearch, jsTrim]
    conv_rhs => rw [hvsplit, jsTrimL_ws_append _ hwall]
  · intro raw h
    exact parse_verdict_none
      (searchFrom_none_of_no_tag (fun _ hs => tagColonAt_of_verdictAttempt hs) _ h)

theorem claim_verdict_semantics_witness :
    (parseModelOutput ("prose first. " ++ "VERDICT:" ++ "  Strong match.  " ++ "\nREPORT:\nbody")).verdict =
      jsTrim "  Strong match.  " ∧
    (parseModelOutput "no tags at all").verdict = "No clear verdict parsed" :=
  ⟨claim_verdict_semantics.1 "prose first. " "  Strong match.  " "\nREPORT:\nbody"
      (by decide) (by decide) (by decide) (by decide),
   claim_verdict_semantics.2 "no tags at all" (by decide)⟩

/-! ## Claim C9 -/

/-- Claim C9 counterexample: the 404 "Not found" response carries only the
CORS header — it does NOT carry `Content-Type: application/json`, contrary to
the claim that every non-204 response carries both headers. -/
theorem claim_headers_cex :
    (handleRequest (fun _ => Except.error "e") ⟨"GET", "/other", .malformed⟩).status = 404 ∧
    (handleRequest (fun _ => Except.error "e") ⟨"GET", "/other", .malformed⟩).status ≠ 204 ∧
    ("Content-Type", "application/json") ∉
      (handleRequest (fun _ => Except.error "e") ⟨"GET", "/other", .malformed⟩).headers := by
  refine ⟨?_, ?_, ?_⟩
  · decide
  · decide
  · decide

/-- Claim C9 as amended: every response carries
`Access-Control-Allow-Origin: *`, and every response other than the 204
preflight AND the 404 "Not found" fallback also carries
`Content-Type: application/json` (the 404 branch builds its `Response`
directly with only the CORS header, bypassing the `json` helper). -/
theorem claim_headers (call : String → Except String String) (req : HttpRequest) :
    ("Access-Control-Allow-Origin", "*") ∈ (handleRequest call req).headers ∧
    ((handleRequest call req).status ≠ 204 → (handleRequest call req).status ≠ 404 →
      ("Content-Type", "application/json") ∈ (handleRequest call req).headers) := by
  unfold handleRequest
  by_cases h1 : req.method = "OPTIONS"
  · rw [if_pos h1]
    exact ⟨by simp, fun h _ => absurd rfl h⟩
  · rw [if_neg h1]
    by_cases h2 : req.path = "/analyze" ∧ req.method = "POST"
    · rw [if_pos h2]
      cases req.bodyJson with
      | malformed => exact ⟨by simp [json], fun _ _ => by simp [json]⟩
      | ok jdField resumesField =>
        simp only
        split_ifs <;> exact ⟨by simp [json], fun _ _ => by simp [json]⟩
    · rw [if_neg h2]
      exact ⟨by simp, fun _ h => absurd rfl h⟩

theorem claim_headers_witness :
    ("Access-Control-Allow-Origin", "*") ∈
      (handleRequest (fun _ => Except.error "e") ⟨"POST", "/analyze", .malformed⟩).headers ∧
    ("Content-Type", "application/json") ∈
      (handleRequest (fun _ => Except.error "e") ⟨"POST", "/analyze", .malformed⟩).headers :=
  ⟨(claim_headers (fun _ => Except.error "e") ⟨"POST", "/analyze", .malformed⟩).1,
   (claim_headers (fun _ => Except.error "e") ⟨"POST", "/analyze", .malformed⟩).2
      (by decide) (by decide)⟩

/-! ### Helpers for the template round-trip -/

/-- A successful run of the verdict regex at the start: after the colon the
greedy `\s*` swallows the leading whitespace of `vl`, and `(.+)` captures the
rest of `vl` (no line terminators inside, a non-whitespace character present),
stopping at the line terminator that opens `suf`. -/
theorem verdictAttempt_run {vl suf : List Char}
    (hv1 : ∀ c ∈ vl, isLineTerm c = false)
    (hv2 : vl.dropWhile isJsWs ≠ [])
    (hsuf : suf.takeWhile (fun c => !isLineTerm c) = []) :
    verdictAttempt ("VERDICT".data ++ (':' :: (vl ++ suf))) =
      some (vl.dropWhile isJsWs) := by
  obtain ⟨c, t, hct⟩ := List.exists_cons_of_ne_nil hv2
  have hcw : isJsWs c = false := dropWhile_head_false hct
  have hvsplit : vl = vl.takeWhile isJsWs ++ (c :: t) := by
    conv_lhs => rw [← List.takeWhile_append_dropWhile isJsWs vl]
    rw [hct]
  have hwall : ∀ x ∈ vl.takeWhile isJsWs, isJsWs x = true :=
    fun x hx => List.mem_takeWhile_imp hx
  have hctmem : ∀ x ∈ c :: t, isLineTerm x = false := by
    intro x hx
    exact hv1 x (hvsplit ▸ List.mem_append.mpr (Or.inr hx))
  unfold verdictAttempt
  rw [matchCI_extend _ (by decide)]
  simp only
  rw [dropWhile_cons_of_neg _ (by decide : isJsWs ':' = false)]
  simp only [if_pos rfl]
  rw [show vl ++ suf = vl.takeWhile isJsWs ++ ((c :: t) ++ suf) by
      rw [← List.append_assoc, ← hvsplit],
    dropWhile_append_all _ hwall, List.cons_append, dropWhile_cons_of_neg _ hcw]
  simp only
  rw [← List.cons_append,
    takeWhile_append_all _ (fun x hx => by simp [hctmem x hx]),
    hsuf, List.append_nil, hct]
  simp

/-- Inside a stretch that does not contain the letters `REPORT`
case-insensitively, no attempt of the report marker can begin — matching
cannot cross the line break that follows the stretch, because `\n` matches
none of the pattern's letters. -/
theorem reportAttempt_none_within {vl rest : List Char}
    (hv : containsCI "REPORT".data vl = false) (i : Nat) :
    reportAttempt (vl.drop i ++ ('\n' :: rest)) = none := by
  suffices h : tagColonAt "REPORT".data (vl.drop i ++ ('\n' :: rest)) = false by
    simp [reportAttempt, h]
  cases hm : matchCI "REPORT".data (vl.drop i ++ ('\n' :: rest)) with
  | none => simp [tagColonAt, hm]
  | some r =>
    exfalso
    rcases matchCI_append "REPORT".data (vl.drop i) ('\n' :: rest)
        (by simp [hm]) with h1 | ⟨h2, h3⟩
    · rw [containsCI_of_drop i h1] at hv
      cases hv
    · generalize hg : (vl.drop i).length = k at h2 h3
      have hk : k < 6 := by simpa [reportTag_data] using h2
      interval_cases k <;> simp +decide [reportTag_data, matchCI] at h3

/-- A successful run of the report-marker search at the start of
`REPORT:\n<body>`: the whole suffix is returned. -/
theorem reportAttempt_run (bd : List Char) :
    reportAttempt ("REPORT".data ++ (':' :: '\n' :: bd)) =
      some ("REPORT".data ++ (':' :: '\n' :: bd)) := by
  unfold reportAttempt
  rw [if_pos]
  unfold tagColonAt
  rw [matchCI_extend _ (by decide)]
  simp only
  rw [dropWhile_cons_of_neg _ (by decide : isJsWs ':' = false)]
  simp

/-! ## Claim C3 -/

/-- Claim C3 counterexample: the template quantifies over an arbitrary
single-line verdict `v`; when `v` itself contains a report marker (here
`v = "REPORT: x"`), the report boundary is established at the FIRST marker
occurrence — inside the verdict line — so the returned report is
`"REPORT:\nbody"`, not the template's `body`. -/
theorem claim_parser_roundtrip_cex :
    (parseModelOutput (tagTemplate "1" "2" "REPORT: x" "body")).report = "REPORT:\nbody" ∧
    (parseModelOutput (tagTemplate "1" "2" "REPORT: x" "body")).report ≠ "body" ∧
    jsTrim "body" = "body" := by
  refine ⟨?_, ?_, ?_⟩
  · decide
  · decide
  · decide

/-- Claim C3 as amended: for raw text built from the exact template
`FIT_SCORE: f\nRISK_SCORE: r\nVERDICT: v\nREPORT:\nbody` — with `f`, `r`
decimal numerals, `v` a single line that contains at least one non-whitespace
character, no line terminator, and no case-insensitive occurrence of the
letters `REPORT`, and `body` free text — the parser returns exactly
`fitScore = f`, `riskScore = r`, `verdict = v` trimmed, `report = body`
trimmed. -/
theorem claim_parser_roundtrip (fs rs v body : String) (f r : Nat)
    (hfs1 : fs.data ≠ []) (hfs2 : ∀ c ∈ fs.data, isDigitC c = true)
    (hfs3 : natOfDigits fs.data = f)
    (hrs1 : rs.data ≠ []) (hrs2 : ∀ c ∈ rs.data, isDigitC c = true)
    (hrs3 : natOfDigits rs.data = r)
    (hfs4 : natOfDigits fs.data < 2 ^ 53) (hrs4 : natOfDigits rs.data < 2 ^ 53)
    (hv1 : ∀ c ∈ v.data, isLineTerm c = false)
    (hv2 : v.data.dropWhile isJsWs ≠ [])
    (hv3 : containsCI "REPORT".data v.data = false) :
    parseModelOutput (tagTemplate fs rs v body) =
      ⟨some (.nat f), some (.nat r), jsTrim v, jsTrim body⟩ := by
  subst hfs3
  subst hrs3
  have lit1 : "FIT_SCORE: ".data = ['F', 'I', 'T', '_', 'S', 'C', 'O', 'R', 'E', ':', ' '] := rfl
  have lit2 : "\nRISK_SCORE: ".data =
    ['\n', 'R', 'I', 'S', 'K', '_', 'S', 'C', 'O', 'R', 'E', ':', ' '] := rfl
  have lit3 : "\nVERDICT: ".data = ['\n', 'V', 'E', 'R', 'D', 'I', 'C', 'T', ':', ' '] := rfl
  have lit4 : "\nREPORT:\n".data = ['\n', 'R', 'E', 'P', 'O', 'R', 'T', ':', '\n'] := rfl
  -- the fit score: a first-position match
  have hfit : (parseModelOutput (tagTemplate fs rs v body)).fitScore =
      some (.nat (natOfDigits fs.data)) := by
    have d1 : (tagTemplate fs rs v body).data =
        "FIT_SCORE".data ++ ':' :: ([' '] ++ (fs.data ++ ('\n' ::
          ("RISK_SCORE: ".data ++ (rs.data ++ ("\nVERDICT: ".data ++
            (v.data ++ ("\nREPORT:\n".data ++ body.data)))))))) := by
      simp [tagTemplate, String.data_append, lit1, lit2, lit3, lit4, fitTag_data,
        show "RISK_SCORE: ".data =
          ['R', 'I', 'S', 'K', '_', 'S', 'C', 'O', 'R', 'E', ':', ' '] from rfl,
        show "\nVERDICT: ".data = ['\n', 'V', 'E', 'R', 'D', 'I', 'C', 'T', ':', ' '] from rfl]
    rw [parse_fitScore, d1,
      findScore_run (by decide) (by decide) (by decide) hfs1 hfs2
        (takeWhile_cons_of_neg _ (by decide)),
      jsNumber_exact hfs4]
  -- the risk score: skip the fit line, then match
  have hrisk : (parseModelOutput (tagTemplate fs rs v body)).riskScore =
      some (.nat (natOfDigits rs.data)) := by
    have d2 : (tagTemplate fs rs v body).data =
        ['F', 'I', 'T', '_', 'S', 'C', 'O'] ++ ('R' :: 'E' :: ':' :: ' ' ::
          (fs.data ++ ('\n' :: ("RISK_SCORE".data ++ (':' :: ([' '] ++
            (rs.data ++ ('\n' :: ("VERDICT: ".data ++ (v.data ++
              ("\nREPORT:\n".data ++ body.data))))))))))) := by
      simp [tagTemplate, String.data_append, lit1, lit2, lit3, lit4, riskTag_data,
        show "VERDICT: ".data = ['V', 'E', 'R', 'D', 'I', 'C', 'T', ':', ' '] from rfl]
    have hpeel : ∀ c, charCI 'R' c = false → ∀ X : List Char,
        scoreAttempt "RISK_SCORE".data (c :: X) = none :=
      fun c hc X => scoreAttempt_head riskTag_data X hc
    have hRE : ∀ X : List Char, scoreAttempt "RISK_SCORE".data ('R' :: 'E' :: X) = none := by
      intro X
      simp +decide [scoreAttempt, riskTag_data, matchCI]
    rw [parse_riskScore, d2]
    unfold findScore
    rw [searchFrom_skip_heads _ _ _
        (fun c hc cs => hpeel c ((by decide :
          ∀ c ∈ ['F', 'I', 'T', '_', 'S', 'C', 'O'], charCI 'R' c = false) c hc) cs),
      searchFrom_cons_none _ (hRE _),
      searchFrom_cons_none _ (hpeel 'E' (by decide) _),
      searchFrom_cons_none _ (hpeel ':' (by decide) _),
      searchFrom_cons_none _ (hpeel ' ' (by decide) _),
      searchFrom_skip_heads _ _ _
        (fun c hc cs => hpeel c (charCI_letter_digit (by decide) (hfs2 c hc)) cs),
      searchFrom_cons_none _ (hpeel '\n' (by decide) _)]
    rw [searchFrom_head (by simp [riskTag_data])
        (scoreAttempt_run (by decide) (by decide) hrs1 hrs2
          (takeWhile_cons_of_neg _ (by decide))),
      jsNumber_exact hrs4]
  -- the verdict: skip both score lines, then match
  have hverd : (parseModelOutput (tagTemplate fs rs v body)).verdict = jsTrim v := by
    have d3 : (tagTemplate fs rs v body).data =
        ['F', 'I', 'T', '_', 'S', 'C', 'O', 'R', 'E', ':', ' '] ++ (fs.data ++
          (['\n', 'R', 'I', 'S', 'K', '_', 'S', 'C', 'O', 'R', 'E', ':', ' '] ++
            (rs.data ++ ('\n' :: ("VERDICT".data ++ (':' :: ((' ' :: v.data) ++
              ('\n' :: ("REPORT:\n".data ++ body.data))))))))) := by
      simp [tagTemplate, String.data_append, lit1, lit2, lit3, lit4, verdictTag_data,
        show "REPORT:\n".data = ['R', 'E', 'P', 'O', 'R', 'T', ':', '\n'] from rfl]
    have hpeelV : ∀ c, charCI 'V' c = false → ∀ X : List Char,
        verdictAttempt (c :: X) = none :=
      fun c hc X => verdictAttempt_head X hc
    have hrun : verdictAttempt ("VERDICT".data ++ (':' :: ((' ' :: v.data) ++
        ('\n' :: ("REPORT:\n".data ++ body.data))))) =
        some ((' ' :: v.data).dropWhile isJsWs) :=
      verdictAttempt_run
        (fun c hc => by
          rcases List.mem_cons.mp hc with h | h
          · subst h; decide
          · exact hv1 c h)
        (by rw [List.dropWhile_cons, if_pos (by decide)]; exact hv2)
        (takeWhile_cons_of_neg _ (by decide))
    have hsearch : findVerdict (tagTemplate fs rs v body).data =
        some (v.data.dropWhile isJsWs) := by
      rw [d3]
      unfold findVerdict
      rw [searchFrom_skip_heads _ _ _
          (fun c hc cs => hpeelV c ((by decide : ∀ c ∈
            ['F', 'I', 'T', '_', 'S', 'C', 'O', 'R', 'E', ':', ' '],
            charCI 'V' c = false) c hc) cs),
        searchFrom_skip_heads _ _ _
          (fun c hc cs => hpeelV c (charCI_letter_digit (by decide) (hfs2 c hc)) cs),
        searchFrom_skip_heads _ _ _
          (fun c hc cs => hpeelV c ((by decide : ∀ c ∈
            ['\n', 'R', 'I', 'S', 'K', '_', 'S', 'C', 'O', 'R', 'E', ':', ' '],
            charCI 'V' c = false) c hc) cs),
        searchFrom_skip_heads _ _ _
          (fun c hc cs => hpeelV c (charCI_letter_digit (by decide) (hrs2 c hc)) cs),
        searchFrom_cons_none _ (hpeelV '\n' (by decide) _)]
      rw [searchFrom_head (by simp [verdictTag_data]) hrun,
        List.dropWhile_cons, if_pos (by decide : isJsWs ' ' = true)]
    rw [parse_verdict_some hsearch, jsTrim]
    conv_rhs => rw [← List.takeWhile_append_dropWhile isJsWs v.data,
      jsTrimL_ws_append _ (fun x hx => List.mem_takeWhile_imp hx)]
  -- the report: skip everything up to the REPORT line, then slice after it
  have hrep : (parseModelOutput (tagTemplate fs rs v body)).report = jsTrim body := by
    have d4 : (tagTemplate fs rs v body).data =
        ['F', 'I', 'T', '_', 'S', 'C', 'O'] ++ 'R' :: 'E' :: ':' :: ' ' ::
          (fs.data ++ '\n' :: 'R' :: 'I' :: 'S' :: 'K' :: '_' :: 'S' :: 'C' :: 'O' ::
            'R' :: 'E' :: ':' :: ' ' :: (rs.data ++ '\n' :: 'V' :: 'E' ::
              'R' :: 'D' :: 'I' :: 'C' :: 'T' :: ':' :: ' ' :: (v.data ++
                '\n' :: ("REPORT".data ++ ':' :: '\n' :: body.data)))) := by
      simp [tagTemplate, String.data_append, lit1, lit2, lit3, lit4, reportTag_data]
    have hpeelR : ∀ c, charCI 'R' c = false → ∀ X : List Char,
        reportAttempt (c :: X) = none :=
      fun c hc X => reportAttempt_head X hc
    have hRE : ∀ X : List Char, reportAttempt ('R' :: 'E' :: ':' :: X) = none := by
      intro X
      simp +decide [reportAttempt, tagColonAt, reportTag_data, matchCI]
    have hRI : ∀ X : List Char, reportAttempt ('R' :: 'I' :: X) = none := by
      intro X
      simp +decide [reportAttempt, tagColonAt, reportTag_data, matchCI]
    have hRD : ∀ X : List Char, reportAttempt ('R' :: 'D' :: X) = none := by
      intro X
      simp +decide [reportAttempt, tagColonAt, reportTag_data, matchCI]
    have hsearch : searchReport (tagTemplate fs rs v body).data =
        some ("REPORT".data ++ (':' :: '\n' :: body.data)) := by
      rw [d4]
      unfold searchReport
      rw [searchFrom_skip_heads _ _ _
          (fun c hc cs => hpeelR c ((by decide :
            ∀ c ∈ ['F', 'I', 'T', '_', 'S', 'C', 'O'], charCI 'R' c = false) c hc) cs),
        searchFrom_cons_none _ (hRE _),
        searchFrom_cons_none _ (hpeelR 'E' (by decide) _),
        searchFrom_cons_none _ (hpeelR ':' (by decide) _),
        searchFrom_cons_none _ (hpeelR ' ' (by decide) _),
        searchFrom_skip_heads _ _ _
          (fun c hc cs => hpeelR c (charCI_letter_digit (by decide) (hfs2 c hc)) cs),
        searchFrom_cons_none _ (hpeelR '\n' (by decide) _),
        searchFrom_cons_none _ (hRI _),
        searchFrom_cons_none _ (hpeelR 'I' (by decide) _),
        searchFrom_cons_none _ (hpeelR 'S' (by decide) _),
        searchFrom_cons_none _ (hpeelR 'K' (by decide) _),
        searchFrom_cons_none _ (hpeelR '_' (by decide) _),
        searchFrom_cons_none _ (hpeelR 'S' (by decide) _),
        searchFrom_cons_none _ (hpeelR 'C' (by decide) _),
        searchFrom_cons_none _ (hpeelR 'O' (by decide) _),
        searchFrom_cons_none _ (hRE _),
        searchFrom_cons_none _ (hpeelR 'E' (by decide) _),
        searchFrom_cons_none _ (hpeelR ':' (by decide) _),
        searchFrom_cons_none _ (hpeelR ' ' (by decide) _),
        searchFrom_skip_heads _ _ _
          (fun c hc cs => hpeelR c (charCI_letter_digit (by decide) (hrs2 c hc)) cs),
        searchFrom_cons_none _ (hpeelR '\n' (by decide) _),
        searchFrom_cons_none _ (hpeelR 'V' (by decide) _),
        searchFrom_cons_none _ (hpeelR 'E' (by decide) _),
        searchFrom_cons_none _ (hRD _),
        searchFrom_cons_none _ (hpeelR 'D' (by decide) _),
        searchFrom_cons_none _ (hpeelR 'I' (by decide) _),
        searchFrom_cons_none _ (hpeelR 'C' (by decide) _),
        searchFrom_cons_none _ (hpeelR 'T' (by decide) _),
        searchFrom_cons_none _ (hpeelR ':' (by decide) _),
        searchFrom_cons_none _ (hpeelR ' ' (by decide) _),
        searchFrom_skip _ _ _ (fun i _ => reportAttempt_none_within hv3 i),
        searchFrom_cons_none _ (hpeelR '\n' (by decide) _)]
      exact searchFrom_head (by simp [reportTag_data]) (reportAttempt_run body.data)
    have hidx : ("REPORT".data ++ (':' :: '\n' :: body.data)).findIdx? (· == '\n') =
        some 7 := by
      simp +decide [reportTag_data, List.findIdx?_cons]
    rw [parse_report_newline hsearch hidx]
    rfl
  calc parseModelOutput (tagTemplate fs rs v body) =
      ⟨(parseModelOutput (tagTemplate fs rs v body)).fitScore,
       (parseModelOutput (tagTemplate fs rs v body)).riskScore,
       (parseModelOutput (tagTemplate fs rs v body)).verdict,
       (parseModelOutput (tagTemplate fs rs v body)).report⟩ := rfl
    _ = ⟨some (.nat (natOfDigits fs.data)), some (.nat (natOfDigits rs.data)),
          jsTrim v, jsTrim body⟩ := by
      rw [hfit, hrisk, hverd, hrep]

theorem claim_parser_roundtrip_witness :
    parseModelOutput (tagTemplate "9" "2" " Strong match. " "Alignment: good\nGaps: none") =
      ⟨some (.nat 9), some (.nat 2), jsTrim " Strong match. ",
        jsTrim "Alignment: good\nGaps: none"⟩ :=
  claim_parser_roundtrip "9" "2" " Strong match. " "Alignment: good\nGaps: none" 9 2
    (by decide) (by decide) (by decide) (by decide) (by decide) (by decide)
    (by decide) (by decide) (by decide) (by decide) (by decide)

end FitScore
